import Mathlib

/-!
Shallow embedding of the `mongoDB` demo of `advanced_ml_from_scratch`:
a Flask service (src/mongoDB/app.py) that serves iris predictions,
appends each prediction to a MongoDB collection, and refits the
classifier whenever the record count is a multiple of 5; plus the
offline bootstrapper (src/mongoDB/model.py) that trains the initial
model on the iris dataset and pickles it to `saved_model.pkl`.

Modelling conventions:
* Python floats are modelled as `ℚ`; no claim depends on
  floating-point rounding, only on whether parsing succeeds.
* MongoDB documents are ordered association lists (Python dicts
  preserve insertion order); `collection.insert_one` appends,
  `collection.find()` returns the records in insertion order.
* The classifier and its library (scikit-learn) are an opaque
  collaborator: the development is parameterised over a `ML`
  record providing `fit` and `predict`.
* Exceptions are explicit: each handler returns the state reflecting
  the side effects performed before the raise, together with either
  the rendered label (`Except.ok`) or the raised error.
-/

/-- Python exceptions that can escape the request path. -/
inductive PyErr : Type where
  /-- `float(x)` raised `ValueError` on a non-numeric form field. -/
  | valueError : PyErr
  /-- `df[feature_names]` raised `KeyError` because `pd.DataFrame([])`
  has no columns at all. -/
  | emptyFrameKeyError : PyErr
  /-- `df[feature_names]` / `df['target']` raised `KeyError` because a
  column is missing, or `clf.fit` rejected a non-numeric feature cell. -/
  | badColumnError : PyErr
  /-- `open('saved_model.pkl', 'wb')` / `pickle.dump` raised an I/O error. -/
  | pickleDumpIOError : PyErr
  deriving DecidableEq, Repr

/-- A value stored in a MongoDB document field: a number or a string. -/
inductive DocVal : Type where
  | num : ℚ → DocVal
  | str : String → DocVal
  deriving DecidableEq, Repr

/-- A MongoDB document, as the Python dict handed to `insert_one`:
an ordered association list from field names to values. -/
abbrev Doc : Type := List (String × DocVal)

/-- `load_iris()['feature_names']`: the four fixed feature names. -/
def feature_names : List String :=
  ["sepal length (cm)", "sepal width (cm)", "petal length (cm)", "petal width (cm)"]

/-- `load_iris()['target_names']`: the three fixed species names. -/
def target_names : List String :=
  ["setosa", "versicolor", "virginica"]

/-- Digits of a numeral string, as a natural number; `none` when a
character is not a decimal digit or the string is empty. -/
def digitsToNat : List Char → Option ℕ
  | [] => none
  | cs => cs.foldlM (fun acc c => if c.isDigit then some (acc * 10 + (c.toNat - 48)) else none) 0

/-- Model of Python `float(x)` on a form-field string: an optional sign,
an integer part, and an optional fractional part.  Returns `none`
(the `ValueError` case) on anything else.  Exotic accepted spellings
(exponents, `inf`, `nan`, underscores) are not modelled; no claim
depends on which numeric spellings parse, only on the failure path. -/
def parseFloat (s : String) : Option ℚ :=
  let core := fun (cs : List Char) =>
    match cs.splitOn '.' with
    | [intPart] => (digitsToNat intPart).map (fun n => (n : ℚ))
    | [intPart, fracPart] =>
        match digitsToNat intPart, digitsToNat fracPart with
        | some n, some f => some ((n : ℚ) + (f : ℚ) / ((10 : ℚ) ^ fracPart.length))
        | _, _ => none
    | _ => none
  match s.data with
  | '-' :: rest => (core rest).map Neg.neg
  | cs => core cs

/-- The opaque scikit-learn collaborator: a classifier type with batch
`fit` and single-row `predict` (labels are the iris species strings). -/
structure ML : Type 1 where
  Clf : Type
  fit : List (List ℚ) → List String → Clf
  predict : Clf → List ℚ → String

/-- The property scikit-learn classifiers guarantee and the proofs about
reachable models rely on: a prediction of a fitted classifier is one of
the labels it was fitted on (its `classes_`). -/
def ML.predInTrain (m : ML) : Prop :=
  ∀ (X : List (List ℚ)) (y : List String) (x : List ℚ), y ≠ [] → m.predict (m.fit X y) x ∈ y

/-- The process-wide mutable state of `app.py`: the MongoDB collection,
the bytes at `saved_model.pkl` (as the pickled classifier, `none` if the
file is absent), the in-memory global `clf`, and a ghost counter of how
many times the artifact file has been overwritten. -/
structure AppState (m : ML) : Type where
  collection : List Doc
  artifact : Option m.Clf
  clf : m.Clf
  writeCount : ℕ

/-- Traverse a list with a fallible function, failing at the first
failure — the semantics of a Python list comprehension whose body can
raise. -/
def mapOpt (f : α → Option β) : List α → Option (List β)
  | [] => some []
  | x :: xs =>
    match f x, mapOpt f xs with
    | some y, some ys => some (y :: ys)
    | _, _ => none

/-- Numeric content of a document field, as pandas/sklearn would need it. -/
def DocVal.asNum : DocVal → Option ℚ
  | .num q => some q
  | .str _ => none

/-- String content of a document field. -/
def DocVal.asStr : DocVal → Option String
  | .num _ => none
  | .str s => some s

/-- `df[feature_names]` row for one record: the four feature columns,
which must all be present and numeric. -/
def recordFeatures (d : Doc) : Option (List ℚ) :=
  mapOpt (fun n => (d.lookup n).bind DocVal.asNum) feature_names

/-- `df['target']` entry for one record: the target column, which must
be present and a string label. -/
def recordTarget (d : Doc) : Option String :=
  (d.lookup "target").bind DocVal.asStr

/-- `df = pd.DataFrame(all_records); X = df[feature_names].values;
y = df['target'].values` — building the training matrix and target
vector from the collection.  An empty record list gives a DataFrame
with no columns, so column selection raises `KeyError`
(`emptyFrameKeyError`); a record with a missing or non-numeric
required field makes the refit raise (`badColumnError`).  (pandas
would NaN-fill a field missing from only some records; that corner is
never reached by any claim, whose collections are uniformly shaped.) -/
def extractXy (rs : List Doc) : Except PyErr (List (List ℚ) × List String) :=
  if rs = [] then .error .emptyFrameKeyError
  else
    match mapOpt recordFeatures rs, mapOpt recordTarget rs with
    | some X, some y => .ok (X, y)
    | _, _ => .error .badColumnError

/-- `finetune_model(collection)` from app.py:
read all records; if the count is a multiple of 5, rebuild `X`, `y`
from the whole collection, refit the global `clf` in place, and
overwrite `saved_model.pkl` with the new pickle.  `writeOk` models
whether the collaborator file write succeeds; on a failed write the
global `clf` has already been mutated by `clf.fit` but the artifact is
not replaced.  Returns the state after the call together with the
raised error, if any. -/
def finetune_model (m : ML) (writeOk : Bool) (st : AppState m) :
    AppState m × Option PyErr :=
  let all_records := st.collection
  if all_records.length % 5 = 0 then
    match extractXy all_records with
    | .error e => (st, some e)
    | .ok (X, y) =>
        let clf' := m.fit X y
        if writeOk then
          ({ st with clf := clf', artifact := some clf', writeCount := st.writeCount + 1 }, none)
        else
          ({ st with clf := clf' }, some .pickleDumpIOError)
  else (st, none)

/-- `data = dict(zip(feature_names + ['target'], features + [y_pred]))`:
the document the handler inserts.  `zip` truncates at the shorter list,
exactly as Python's does. -/
def mkDoc (features : List ℚ) (y_pred : String) : Doc :=
  List.zip (feature_names ++ ["target"]) (features.map DocVal.num ++ [DocVal.str y_pred])

/-- The `POST /predict` handler from app.py:
parse every form value as a float (raising `ValueError` first, before
any side effect, if one is non-numeric), predict with the loaded model,
insert the zipped document into the collection, then call
`finetune_model`.  The returned state carries every side effect
performed before a raise: in particular a raise inside
`finetune_model` does not undo the insert. -/
def predict (m : ML) (writeOk : Bool) (form : List String) (st : AppState m) :
    AppState m × Except PyErr String :=
  match mapOpt parseFloat form with
  | none => (st, .error .valueError)
  | some features =>
      let y_pred := m.predict st.clf features
      let data := mkDoc features y_pred
      let st1 := { st with collection := st.collection ++ [data] }
      match finetune_model m writeOk st1 with
      | (st2, none) => (st2, .ok y_pred)
      | (st2, some e) => (st2, .error e)

/-- The state after the `k`-th request of an unbounded request stream
`forms`, starting from `init` (request `k` uses `forms (k-1)`). -/
def trajectory (m : ML) (writeOk : Bool) (forms : ℕ → List String)
    (init : AppState m) : ℕ → AppState m
  | 0 => init
  | k + 1 => (predict m writeOk (forms k) (trajectory m writeOk forms init k)).1

/-! ## The offline bootstrapper, src/mongoDB/model.py -/

/-- The opaque collaborator `load_iris()`: 150 labelled rows of 4
features, with class indices 0, 1, 2 (the fixed names are
`feature_names` and `target_names` above). -/
structure IrisData : Type where
  data : List (List ℚ)
  target : List ℕ
  data_len : data.length = 150
  target_len : target.length = 150
  target_lt : ∀ t ∈ target, t < 3

/-- `df['target'].replace(target_names_dict)` on one entry, where
`target_names_dict = dict(zip(range(len(target_names)), target_names))`:
indices 0, 1, 2 become the species names.  (pandas `replace` leaves a
value outside the dict unchanged; iris class indices are all below 3,
so that branch is unreachable and is rendered as a decimal string.) -/
def replace_target (t : ℕ) : String :=
  (target_names.get? t).getD (toString t)

/-- The DataFrame built by `make_data`: the four feature columns
(named by `columns`, row-wise values in `rows`) plus the added
`'target'` column. -/
structure IrisDF : Type where
  columns : List String
  rows : List (List ℚ)
  target : List String

/-- `make_data()` from model.py: a DataFrame of the iris features with
a `'target'` column holding species names instead of class indices. -/
def make_data (iris : IrisData) : IrisDF :=
  { columns := feature_names
    rows := iris.data
    target := iris.target.map replace_target }

/-- The `__main__` block of model.py: build the DataFrame, take `X` as
all columns except `'target'` and `y` as the `'target'` column, fit the
classifier on all of it, and pickle it to `'saved_model.pkl'`.  Result:
the artifact path and the pickled classifier. -/
def bootstrap (m : ML) (iris : IrisData) : String × m.Clf :=
  let df := make_data iris
  let X := df.rows
  let y := df.target
  ("saved_model.pkl", m.fit X y)

/-- Process start of app.py on a fresh database: the collection is
empty and the global `clf` is unpickled from the artifact the
bootstrapper wrote. -/
def initState (m : ML) (iris : IrisData) : AppState m :=
  { collection := []
    artifact := some (bootstrap m iris).2
    clf := (bootstrap m iris).2
    writeCount := 0 }

/-! ## Concrete collaborator instances used by witnesses -/

/-- A classifier model that memorises its training labels and always
answers with the first one: the simplest instance satisfying
`ML.predInTrain`. -/
def constClf : ML :=
  { Clf := List String
    fit := fun _ y => y
    predict := fun c _ => c.headD "setosa" }

/-- A classifier model whose artifact records how many rows the
training matrix had: lets a closed theorem observe the size of the
training set a refit used. -/
def countClf : ML :=
  { Clf := ℕ
    fit := fun X _ => X.length
    predict := fun _ _ => "setosa" }

/-- A stand-in iris dataset with the right shape (the real numeric
values live in scikit-learn, outside the repository). -/
def toyIris : IrisData :=
  { data := List.replicate 150 [5, 3, 1, 0]
    target := List.replicate 150 0
    data_len := by simp
    target_len := by simp
    target_lt := by
      intro t ht
      have h := List.eq_of_mem_replicate ht
      omega }

/-- A well-formed 4-field form submission used by concrete scenarios. -/
def wForm : List String := ["1", "2", "3", "4"]

/-- Fresh-start state for `constClf`: empty collection, no artifact. -/
def wInit : AppState constClf :=
  { collection := [], artifact := none, clf := [], writeCount := 0 }

/-- Four pre-existing well-shaped records, as the collection holds after
four successful requests (or from an earlier process run). -/
def wDocs4 : List Doc := List.replicate 4 (mkDoc [1, 2, 3, 4] "setosa")

/-- `constClf` state over a collection already holding 4 records. -/
def wInit4 : AppState constClf :=
  { collection := wDocs4, artifact := none, clf := [], writeCount := 0 }

/-- `countClf` state over a collection already holding 4 records. -/
def wCountInit4 : AppState countClf :=
  { collection := wDocs4, artifact := some (0 : ℕ), clf := (0 : ℕ), writeCount := 0 }

/-- `countClf` fresh-start state. -/
def wCountInit : AppState countClf :=
  { collection := [], artifact := some (0 : ℕ), clf := (0 : ℕ), writeCount := 0 }

/-- Every prediction of this classifier is one of the three species. -/
def ClfGood (m : ML) (c : m.Clf) : Prop :=
  ∀ x, m.predict c x ∈ target_names

/-- The invariant tying the store to the label set: the in-memory
classifier only emits species names, and every `'target'` a stored
record holds is a species name. -/
def LabelInv (m : ML) (st : AppState m) : Prop :=
  ClfGood m st.clf ∧
    ∀ r ∈ st.collection, ∀ t, recordTarget r = some t → t ∈ target_names

/-! ## Basic lemmas about documents and traversals -/

/-- The shape of the document every successful 4-numeric-field request
inserts: four feature values zipped with the feature names, plus the
predicted label under `'target'`. -/
def GoodDoc (r : Doc) : Prop :=
  ∃ a b c d y, r = mkDoc [a, b, c, d] y

/-- A form whose field values all parse as floats and number exactly 4. -/
def GoodForm (f : List String) : Prop :=
  ∃ a b c d : ℚ, mapOpt parseFloat f = some [a, b, c, d]

lemma constClf_predInTrain : constClf.predInTrain := by
  intro X y x hy
  match y with
  | [] => exact absurd rfl hy
  | l :: ls => exact List.mem_cons_self l ls

lemma recordFeatures_mkDoc (a b c d : ℚ) (y : String) :
    recordFeatures (mkDoc [a, b, c, d] y) = some [a, b, c, d] := rfl

lemma recordTarget_mkDoc4 (a b c d : ℚ) (y : String) :
    recordTarget (mkDoc [a, b, c, d] y) = some y := rfl

/-- Whatever the number of form fields, the only string the inserted
document can hold under `'target'` is the predicted label (with fewer
than 4 fields the key is absent; with more, it holds a number). -/
lemma recordTarget_mkDoc (qs : List ℚ) (y t : String)
    (h : recordTarget (mkDoc qs y) = some t) : t = y := by
  match qs with
  | [] => exact Option.noConfusion h
  | [_] => exact Option.noConfusion h
  | [_, _] => exact Option.noConfusion h
  | [_, _, _] => exact Option.noConfusion h
  | [_, _, _, _] => exact (Option.some.inj h).symm
  | _ :: _ :: _ :: _ :: _ :: _ => exact Option.noConfusion h

lemma mapOpt_length {f : α → Option β} :
    ∀ {l : List α} {ys : List β}, mapOpt f l = some ys → ys.length = l.length := by
  intro l
  induction l with
  | nil => intro ys h; cases h; rfl
  | cons x xs ih =>
      intro ys h
      unfold mapOpt at h
      rcases hx : f x with _ | y <;> rw [hx] at h
      · exact Option.noConfusion h
      · rcases hxs : mapOpt f xs with _ | ys' <;> rw [hxs] at h
        · exact Option.noConfusion h
        · cases h
          simp [ih hxs]

lemma mapOpt_mem {f : α → Option β} :
    ∀ {l : List α} {ys : List β}, mapOpt f l = some ys →
      ∀ y ∈ ys, ∃ x ∈ l, f x = some y := by
  intro l
  induction l with
  | nil => intro ys h; cases h; intro y hy; exact absurd hy (List.not_mem_nil y)
  | cons x xs ih =>
      intro ys h
      unfold mapOpt at h
      rcases hx : f x with _ | y0 <;> rw [hx] at h
      · exact Option.noConfusion h
      · rcases hxs : mapOpt f xs with _ | ys' <;> rw [hxs] at h
        · exact Option.noConfusion h
        · cases h
          intro y hy
          rcases List.mem_cons.mp hy with hy | hy
          · exact ⟨x, List.mem_cons_self x xs, hy ▸ hx⟩
          · rcases ih hxs y hy with ⟨x', hx', hfx'⟩
            exact ⟨x', List.mem_cons_of_mem x hx', hfx'⟩

lemma mapOpt_isSome {f : α → Option β} :
    ∀ {l : List α}, (∀ x ∈ l, (f x).isSome) → ∃ ys, mapOpt f l = some ys := by
  intro l
  induction l with
  | nil => intro _; exact ⟨[], rfl⟩
  | cons x xs ih =>
      intro h
      rcases Option.isSome_iff_exists.mp (h x (List.mem_cons_self x xs)) with ⟨y, hy⟩
      rcases ih (fun x' hx' => h x' (List.mem_cons_of_mem x hx')) with ⟨ys, hys⟩
      exact ⟨y :: ys, by unfold mapOpt; rw [hy, hys]⟩

/-! ## Lemmas about the refit path -/

lemma extractXy_ok_of_good {rs : List Doc} (hg : ∀ r ∈ rs, GoodDoc r) (hne : rs ≠ []) :
    ∃ X y, extractXy rs = .ok (X, y) ∧ X.length = rs.length ∧ y.length = rs.length := by
  have hX : ∃ X, mapOpt recordFeatures rs = some X := by
    refine mapOpt_isSome (fun r hr => ?_)
    rcases hg r hr with ⟨a, b, c, d, y, rfl⟩
    rw [recordFeatures_mkDoc]; rfl
  have hY : ∃ y, mapOpt recordTarget rs = some y := by
    refine mapOpt_isSome (fun r hr => ?_)
    rcases hg r hr with ⟨a, b, c, d, y, rfl⟩
    rw [recordTarget_mkDoc4]; rfl
  rcases hX with ⟨X, hX⟩
  rcases hY with ⟨y, hY⟩
  refine ⟨X, y, ?_, mapOpt_length hX, mapOpt_length hY⟩
  unfold extractXy
  rw [if_neg hne, hX, hY]

lemma extractXy_ok_spec {rs : List Doc} {X : List (List ℚ)} {y : List String}
    (h : extractXy rs = .ok (X, y)) :
    rs ≠ [] ∧ X.length = rs.length ∧ y.length = rs.length ∧
      ∀ l ∈ y, ∃ r ∈ rs, recordTarget r = some l := by
  unfold extractXy at h
  by_cases hne : rs = []
  · rw [if_pos hne] at h; exact Except.noConfusion h
  · rw [if_neg hne] at h
    rcases hX : mapOpt recordFeatures rs with _ | X' <;> rw [hX] at h
    · exact Except.noConfusion h
    · rcases hY : mapOpt recordTarget rs with _ | y' <;> rw [hY] at h
      · exact Except.noConfusion h
      · obtain ⟨rfl, rfl⟩ : X' = X ∧ y' = y := by
          cases h; exact ⟨rfl, rfl⟩
        exact ⟨hne, mapOpt_length hX, mapOpt_length hY, mapOpt_mem hY⟩

lemma extractXy_ne_emptyErr {rs : List Doc} (hne : rs ≠ []) :
    extractXy rs ≠ .error PyErr.emptyFrameKeyError := by
  unfold extractXy
  rw [if_neg hne]
  rcases mapOpt recordFeatures rs with _ | X <;>
    rcases mapOpt recordTarget rs with _ | y <;> simp

/-- `finetune_model` only reads the collection; it never inserts,
removes or rewrites records. -/
lemma finetune_model_collection (m : ML) (w : Bool) (st : AppState m) :
    (finetune_model m w st).1.collection = st.collection := by
  unfold finetune_model
  by_cases h5 : st.collection.length % 5 = 0
  · rw [if_pos h5]
    rcases hE : extractXy st.collection with e | ⟨X, y⟩
    · simp [hE]
    · cases w <;> simp [hE]
  · rw [if_neg h5]

/-- On a record count that is not a multiple of 5, `finetune_model`
does nothing at all. -/
lemma finetune_model_notMul (m : ML) (w : Bool) (st : AppState m)
    (h5 : st.collection.length % 5 ≠ 0) :
    finetune_model m w st = (st, none) := by
  unfold finetune_model
  rw [if_neg h5]

/-- On a multiple-of-5 record count with a well-shaped collection and a
successful file write, `finetune_model` refits on the whole collection
and overwrites the artifact. -/
lemma finetune_model_mul (m : ML) (st : AppState m)
    (h5 : st.collection.length % 5 = 0)
    (X : List (List ℚ)) (y : List String)
    (hE : extractXy st.collection = .ok (X, y)) :
    finetune_model m true st =
      ({ st with clf := m.fit X y, artifact := some (m.fit X y),
                 writeCount := st.writeCount + 1 }, none) := by
  unfold finetune_model
  rw [if_pos h5, hE]
  rfl

/-- On a non-empty collection, the refit can never hit the
empty-DataFrame `KeyError` branch. -/
lemma finetune_model_ne_emptyErr (m : ML) (w : Bool) (st : AppState m)
    (h : st.collection ≠ []) :
    (finetune_model m w st).2 ≠ some PyErr.emptyFrameKeyError := by
  unfold finetune_model
  by_cases h5 : st.collection.length % 5 = 0
  · rw [if_pos h5]
    rcases hE : extractXy st.collection with e | ⟨X, y⟩
    · have hne := extractXy_ne_emptyErr h
      rw [hE] at hne
      simp only
      intro hcontra
      exact hne (by rw [Option.some.inj hcontra])
    · cases w <;> simp
  · rw [if_neg h5]
    simp

/-! ## Lemmas about the request handler -/

lemma predict_parse_none (m : ML) (w : Bool) (form : List String) (st : AppState m)
    (h : mapOpt parseFloat form = none) :
    predict m w form st = (st, .error PyErr.valueError) := by
  unfold predict
  rw [h]

lemma predict_parse_some (m : ML) (w : Bool) (form : List String) (st : AppState m)
    (features : List ℚ) (h : mapOpt parseFloat form = some features) :
    predict m w form st =
      (match finetune_model m w
          { st with collection :=
              st.collection ++ [mkDoc features (m.predict st.clf features)] } with
       | (st2, none) => (st2, .ok (m.predict st.clf features))
       | (st2, some e) => (st2, .error e)) := by
  unfold predict
  rw [h]

/-- Whenever the form parses, the request appends exactly its document
to the collection — whether or not the refit then raises. -/
lemma predict_collection (m : ML) (w : Bool) (form : List String) (st : AppState m)
    (features : List ℚ) (h : mapOpt parseFloat form = some features) :
    (predict m w form st).1.collection =
      st.collection ++ [mkDoc features (m.predict st.clf features)] := by
  rw [predict_parse_some m w form st features h]
  rcases hF : finetune_model m w
      { st with collection :=
          st.collection ++ [mkDoc features (m.predict st.clf features)] } with ⟨st2, r⟩
  have hc := finetune_model_collection m w
    { st with collection :=
        st.collection ++ [mkDoc features (m.predict st.clf features)] }
  rw [hF] at hc
  rcases r with _ | e <;> simpa using hc

/-- A good request off the 5-boundary: insert, no refit, success. -/
lemma predict_good_notMul (m : ML) (w : Bool) (form : List String) (st : AppState m)
    (features : List ℚ) (h : mapOpt parseFloat form = some features)
    (h5 : (st.collection.length + 1) % 5 ≠ 0) :
    predict m w form st =
      ({ st with collection :=
           st.collection ++ [mkDoc features (m.predict st.clf features)] },
        .ok (m.predict st.clf features)) := by
  rw [predict_parse_some m w form st features h]
  rw [finetune_model_notMul m w _ (by simpa using h5)]

/-- A good request on the 5-boundary with a well-shaped store: insert,
refit on the whole collection, artifact overwrite, success. -/
lemma predict_good_mul (m : ML) (form : List String) (st : AppState m)
    (features : List ℚ) (h : mapOpt parseFloat form = some features)
    (h5 : (st.collection.length + 1) % 5 = 0)
    (X : List (List ℚ)) (ys : List String)
    (hE : extractXy
        (st.collection ++ [mkDoc features (m.predict st.clf features)]) = .ok (X, ys)) :
    predict m true form st =
      ({ collection := st.collection ++ [mkDoc features (m.predict st.clf features)],
         artifact := some (m.fit X ys), clf := m.fit X ys,
         writeCount := st.writeCount + 1 },
        .ok (m.predict st.clf features)) := by
  rw [predict_parse_some m true form st features h]
  rw [finetune_model_mul m _ (by simpa using h5) X ys hE]

lemma trajectory_succ (m : ML) (w : Bool) (forms : ℕ → List String)
    (init : AppState m) (k : ℕ) :
    trajectory m w forms init (k + 1) =
      (predict m w (forms k) (trajectory m w forms init k)).1 := rfl

/-- From an empty store, a stream of good forms keeps every stored
record well-shaped and makes the count after request `k` exactly `k`. -/
lemma trajectory_inv (m : ML) (forms : ℕ → List String)
    (hf : ∀ k, GoodForm (forms k)) (init : AppState m)
    (h0 : init.collection = []) (k : ℕ) :
    (trajectory m true forms init k).collection.length = k ∧
      ∀ r ∈ (trajectory m true forms init k).collection, GoodDoc r := by
  induction k with
  | zero =>
      refine ⟨by simp [trajectory, h0], fun r hr => ?_⟩
      rw [show trajectory m true forms init 0 = init from rfl, h0] at hr
      exact absurd hr (List.not_mem_nil r)
  | succ k ih =>
      obtain ⟨hlen, hgood⟩ := ih
      obtain ⟨a, b, c, d, hp⟩ := hf k
      have hcol :
          (trajectory m true forms init (k + 1)).collection =
            (trajectory m true forms init k).collection ++
              [mkDoc [a, b, c, d]
                (m.predict (trajectory m true forms init k).clf [a, b, c, d])] := by
        rw [trajectory_succ]
        exact predict_collection m true (forms k) _ _ hp
      constructor
      · rw [hcol]; simp [hlen]
      · rw [hcol]
        intro r hr
        rcases List.mem_append.mp hr with hr | hr
        · exact hgood r hr
        · rcases List.mem_singleton.mp hr with rfl
          exact ⟨a, b, c, d, _, rfl⟩

/-! ## The reachable-label invariant -/

lemma replace_target_mem {t : ℕ} (h : t < 3) : replace_target t ∈ target_names := by
  interval_cases t <;> simp [replace_target, target_names]

lemma initState_labelInv (m : ML) (hm : m.predInTrain) (iris : IrisData) :
    LabelInv m (initState m iris) := by
  constructor
  · intro x
    have hne : iris.target.map replace_target ≠ [] := by
      have : (iris.target.map replace_target).length = 150 := by
        simp [iris.target_len]
      intro hcontra
      rw [hcontra] at this
      simp at this
    have hmem := hm iris.data (iris.target.map replace_target) x hne
    rcases List.mem_map.mp hmem with ⟨t, ht, heq⟩
    rw [show (initState m iris).clf = m.fit iris.data (iris.target.map replace_target) from rfl,
      ← heq]
    exact replace_target_mem (iris.target_lt t ht)
  · intro r hr
    exact absurd hr (by simp [initState])

lemma finetune_model_labelInv (m : ML) (hm : m.predInTrain) (w : Bool)
    (st : AppState m) (h : LabelInv m st) :
    LabelInv m (finetune_model m w st).1 := by
  obtain ⟨hclf, hrec⟩ := h
  unfold finetune_model
  by_cases h5 : st.collection.length % 5 = 0
  · rw [if_pos h5]
    rcases hE : extractXy st.collection with e | ⟨X, y⟩
    · exact ⟨hclf, hrec⟩
    · obtain ⟨hne, _, hY, hmem⟩ := extractXy_ok_spec hE
      have hysub : ∀ l ∈ y, l ∈ target_names := by
        intro l hl
        rcases hmem l hl with ⟨r, hr, ht⟩
        exact hrec r hr l ht
      have hyne : y ≠ [] := by
        have hpos : 0 < st.collection.length := List.length_pos.mpr hne
        rw [← hY] at hpos
        exact List.ne_nil_of_length_pos hpos
      have hgood : ClfGood m (m.fit X y) := fun x => hysub _ (hm X y x hyne)
      cases w <;> exact ⟨hgood, hrec⟩
  · rw [if_neg h5]
    exact ⟨hclf, hrec⟩

lemma predict_labelInv (m : ML) (hm : m.predInTrain) (w : Bool)
    (form : List String) (st : AppState m) (h : LabelInv m st) :
    LabelInv m (predict m w form st).1 := by
  rcases hp : mapOpt parseFloat form with _ | features
  · rw [predict_parse_none m w form st hp]
    exact h
  · rw [predict_parse_some m w form st features hp]
    have h1 : LabelInv m
        { st with collection :=
            st.collection ++ [mkDoc features (m.predict st.clf features)] } := by
      refine ⟨h.1, fun r hr t ht => ?_⟩
      rcases List.mem_append.mp hr with hr | hr
      · exact h.2 r hr t ht
      · rcases List.mem_singleton.mp hr with rfl
        rw [recordTarget_mkDoc features _ t ht]
        exact h.1 features
    have h2 := finetune_model_labelInv m hm w _ h1
    rcases hF : finetune_model m w
        { st with collection :=
            st.collection ++ [mkDoc features (m.predict st.clf features)] } with ⟨st2, r⟩
    rw [hF] at h2
    rcases r with _ | e <;> exact h2

/-- The invariant holds at every state the service can reach from a
fresh start, whatever the request stream contains. -/
lemma trajectory_labelInv (m : ML) (hm : m.predInTrain) (w : Bool)
    (forms : ℕ → List String) (iris : IrisData) (k : ℕ) :
    LabelInv m (trajectory m w forms (initState m iris) k) := by
  induction k with
  | zero => exact initState_labelInv m hm iris
  | succ k ih => exact predict_labelInv m hm w (forms k) _ ih

lemma predict_ok_label (m : ML) (w : Bool) (form : List String) (st : AppState m)
    (features : List ℚ) (l : String) (hp : mapOpt parseFloat form = some features)
    (h : (predict m w form st).2 = .ok l) : l = m.predict st.clf features := by
  rw [predict_parse_some m w form st features hp] at h
  rcases hF : finetune_model m w
      { st with collection :=
          st.collection ++ [mkDoc features (m.predict st.clf features)] } with ⟨st2, r⟩
  rw [hF] at h
  rcases r with _ | e
  · exact (Except.ok.inj h).symm
  · exact Except.noConfusion h

example : (parseFloat "5.1").isSome = true := by rfl
example : parseFloat "abc" = none := by rfl
example : (parseFloat "-2").isSome = true := by rfl
example : parseFloat "" = none := by rfl
example : parseFloat "1.2.3" = none := by rfl
example : parseFloat "1" = some ((1 : ℕ) : ℚ) := by rfl
example (a b c d : ℚ) (y : String) :
    recordTarget (mkDoc [a, b, c, d] y) = some y := rfl
example (a b c d : ℚ) (y : String) :
    recordFeatures (mkDoc [a, b, c, d] y) = some [a, b, c, d] := rfl
example (a b c d e : ℚ) (r : List ℚ) (y : String) :
    recordTarget (mkDoc (a :: b :: c :: d :: e :: r) y) = none := rfl
example (a b c : ℚ) (y : String) :
    recordTarget (mkDoc [a, b, c] y) = none := rfl

/-! ## Claim theorems -/

/-- C3: every successful `POST /predict` request inserts exactly one
document: for every initial collection state, the collection afterwards
is the old collection with a single document appended, so the count
grows by exactly 1 and no existing record is modified or removed. -/
theorem C3_insert_exactly_one (m : ML) (w : Bool) (form : List String)
    (st st' : AppState m) (l : String)
    (h : predict m w form st = (st', .ok l)) :
    ∃ d, st'.collection = st.collection ++ [d] ∧
      st'.collection.length = st.collection.length + 1 := by
  rcases hp : mapOpt parseFloat form with _ | features
  · rw [predict_parse_none m w form st hp] at h
    injection h with h1 h2
    exact Except.noConfusion h2
  · have hc := predict_collection m w form st features hp
    rw [h] at hc
    exact ⟨_, hc, by rw [hc]; simp⟩

/-- C3 witness: a concrete successful request from the fresh state. -/
theorem C3_insert_exactly_one_witness :
    ∃ d, (predict constClf true wForm wInit).1.collection = wInit.collection ++ [d] ∧
      (predict constClf true wForm wInit).1.collection.length =
        wInit.collection.length + 1 :=
  C3_insert_exactly_one constClf true wForm wInit
    (predict constClf true wForm wInit).1 "setosa" rfl

/-- C4: with exactly 4 numeric form fields, the inserted document maps
the 4 feature names, in order, to the parsed field values in submission
order, plus `'target'` mapped to the label the loaded classifier
predicts for that vector — and nothing else. -/
theorem C4_inserted_document_shape (m : ML) (w : Bool) (form : List String)
    (st : AppState m) (a b c d : ℚ)
    (h : mapOpt parseFloat form = some [a, b, c, d]) :
    (predict m w form st).1.collection = st.collection ++
      [[("sepal length (cm)", DocVal.num a), ("sepal width (cm)", DocVal.num b),
        ("petal length (cm)", DocVal.num c), ("petal width (cm)", DocVal.num d),
        ("target", DocVal.str (m.predict st.clf [a, b, c, d]))]] := by
  rw [predict_collection m w form st _ h]
  rfl

/-- C4 witness: the concrete document of a concrete request. -/
theorem C4_inserted_document_shape_witness :
    mapOpt parseFloat wForm = some [(1 : ℚ), 2, 3, 4] ∧
    (predict constClf true wForm wInit).1.collection = wInit.collection ++
      [[("sepal length (cm)", DocVal.num 1), ("sepal width (cm)", DocVal.num 2),
        ("petal length (cm)", DocVal.num 3), ("petal width (cm)", DocVal.num 4),
        ("target", DocVal.str (constClf.predict wInit.clf [1, 2, 3, 4]))]] :=
  ⟨rfl, C4_inserted_document_shape constClf true wForm wInit 1 2 3 4 rfl⟩

/-- C5: when some form field fails to parse as a float, the handler
raises `ValueError` and performs no side effect at all: the returned
state is exactly the initial one, so no document is inserted. -/
theorem C5_parse_error_no_insert (m : ML) (w : Bool) (form : List String)
    (st : AppState m) (h : mapOpt parseFloat form = none) :
    predict m w form st = (st, .error PyErr.valueError) :=
  predict_parse_none m w form st h

/-- C5 witness: a concrete form with a non-numeric field. -/
theorem C5_parse_error_no_insert_witness :
    mapOpt parseFloat ["1", "abc", "3", "4"] = none ∧
    predict constClf true ["1", "abc", "3", "4"] wInit =
      (wInit, .error PyErr.valueError) :=
  ⟨rfl, C5_parse_error_no_insert constClf true ["1", "abc", "3", "4"] wInit rfl⟩

/-- C6: the handler is not atomic — when the insert has happened and a
later step (refit extraction or the artifact write) raises, the request
fails with that error but the inserted record remains in the
collection; nothing is rolled back. -/
theorem C6_no_rollback_on_late_failure (m : ML) (w : Bool) (form : List String)
    (st : AppState m) (features : List ℚ) (e : PyErr)
    (hp : mapOpt parseFloat form = some features)
    (hf : (finetune_model m w
        { st with collection :=
            st.collection ++ [mkDoc features (m.predict st.clf features)] }).2 = some e) :
    (predict m w form st).2 = .error e ∧
    (predict m w form st).1.collection =
      st.collection ++ [mkDoc features (m.predict st.clf features)] := by
  refine ⟨?_, predict_collection m w form st features hp⟩
  rw [predict_parse_some m w form st features hp]
  rcases hF : finetune_model m w
      { st with collection :=
          st.collection ++ [mkDoc features (m.predict st.clf features)] } with ⟨st2, r⟩
  rw [hF] at hf
  simp only at hf
  rw [hf]

/-- C6 witness: a concrete request that hits the 5-record boundary and
fails at the artifact write, yet keeps its inserted record. -/
theorem C6_no_rollback_on_late_failure_witness :
    (predict constClf false wForm wInit4).2 = .error PyErr.pickleDumpIOError ∧
    (predict constClf false wForm wInit4).1.collection =
      wInit4.collection ++
        [mkDoc [1, 2, 3, 4] (constClf.predict wInit4.clf [1, 2, 3, 4])] :=
  C6_no_rollback_on_late_failure constClf false wForm wInit4 [1, 2, 3, 4]
    PyErr.pickleDumpIOError rfl rfl

/-- C8: the bootstrapper loads the 150-record reference dataset, builds
a table whose columns are the 4 feature names plus a `'target'` column
with class indices replaced by species names, fits one classifier on
the entire dataset (all 150 rows, no split), and serializes it to the
fixed path `'saved_model.pkl'`. -/
theorem C8_bootstrap_contract (m : ML) (iris : IrisData) :
    (bootstrap m iris).1 = "saved_model.pkl" ∧
    (make_data iris).columns = feature_names ∧
    feature_names.length = 4 ∧
    (make_data iris).rows = iris.data ∧
    (make_data iris).rows.length = 150 ∧
    (make_data iris).target = iris.target.map replace_target ∧
    (make_data iris).target.length = 150 ∧
    replace_target 0 = "setosa" ∧
    replace_target 1 = "versicolor" ∧
    replace_target 2 = "virginica" ∧
    (bootstrap m iris).2 = m.fit (make_data iris).rows (make_data iris).target :=
  ⟨rfl, rfl, rfl, rfl, iris.data_len, rfl,
    by simp [make_data, iris.target_len], rfl, rfl, rfl, rfl⟩

/-- C10: in the request path the refit never sees an empty dataset —
the insert precedes the `finetune_model` call, so when the
multiple-of-5 condition holds the collection has at least 5 records,
and the empty-DataFrame `KeyError` branch is unreachable from
`POST /predict`. -/
theorem C10_refit_never_on_empty (m : ML) (w : Bool) (form : List String)
    (st : AppState m) (features : List ℚ)
    (hp : mapOpt parseFloat form = some features)
    (h5 : (st.collection ++ [mkDoc features (m.predict st.clf features)]).length % 5 = 0) :
    5 ≤ (st.collection ++ [mkDoc features (m.predict st.clf features)]).length ∧
    (predict m w form st).2 ≠ .error PyErr.emptyFrameKeyError := by
  constructor
  · have hlen :
        (st.collection ++ [mkDoc features (m.predict st.clf features)]).length =
          st.collection.length + 1 := by simp
    omega
  · rw [predict_parse_some m w form st features hp]
    have hne := finetune_model_ne_emptyErr m w
      { st with collection :=
          st.collection ++ [mkDoc features (m.predict st.clf features)] }
      (by simp)
    rcases hF : finetune_model m w
        { st with collection :=
            st.collection ++ [mkDoc features (m.predict st.clf features)] } with ⟨st2, r⟩
    rw [hF] at hne
    rcases r with _ | e
    · simp
    · simp only at hne ⊢
      intro hcontra
      exact hne (by rw [Except.error.inj hcontra])

/-- C10 witness: a concrete request whose insert lands on the 5-record
boundary. -/
theorem C10_refit_never_on_empty_witness :
    (wInit4.collection ++
        [mkDoc [1, 2, 3, 4] (constClf.predict wInit4.clf [1, 2, 3, 4])]).length % 5 = 0 ∧
    5 ≤ (wInit4.collection ++
        [mkDoc [1, 2, 3, 4] (constClf.predict wInit4.clf [1, 2, 3, 4])]).length ∧
    (predict constClf true wForm wInit4).2 ≠ .error PyErr.emptyFrameKeyError :=
  ⟨rfl, C10_refit_never_on_empty constClf true wForm wInit4 [1, 2, 3, 4] rfl rfl⟩

/-- C1: starting from an empty collection, after the `N`-th successful
request (all requests well-formed) the artifact has been overwritten
with a classifier newly fitted on the whole collection if and only if
`N % 5 = 0`; off the boundary neither the artifact content nor the
write counter changes.  The first conjunct shows request `N` is indeed
successful. -/
theorem C1_artifact_overwrite_iff_mult5 (m : ML) (forms : ℕ → List String)
    (hf : ∀ k, GoodForm (forms k)) (init : AppState m)
    (h0 : init.collection = []) (N : ℕ) (hN : 0 < N) :
    (∃ l, (predict m true (forms (N - 1)) (trajectory m true forms init (N - 1))).2 =
        .ok l) ∧
    (N % 5 = 0 →
      ∃ X y, extractXy (trajectory m true forms init N).collection = .ok (X, y) ∧
        (trajectory m true forms init N).artifact = some (m.fit X y) ∧
        (trajectory m true forms init N).writeCount =
          (trajectory m true forms init (N - 1)).writeCount + 1) ∧
    (N % 5 ≠ 0 →
      (trajectory m true forms init N).artifact =
        (trajectory m true forms init (N - 1)).artifact ∧
      (trajectory m true forms init N).writeCount =
        (trajectory m true forms init (N - 1)).writeCount) := by
  obtain ⟨k, rfl⟩ : ∃ k, N = k + 1 := ⟨N - 1, (Nat.succ_pred_eq_of_pos hN).symm⟩
  rw [show k + 1 - 1 = k from rfl]
  obtain ⟨hlen, hgood⟩ := trajectory_inv m forms hf init h0 k
  obtain ⟨a, b, c, d, hp⟩ := hf k
  by_cases h5 : (k + 1) % 5 = 0
  · have hall : ∀ r ∈ (trajectory m true forms init k).collection ++
        [mkDoc [a, b, c, d]
          (m.predict (trajectory m true forms init k).clf [a, b, c, d])], GoodDoc r := by
      intro r hr
      rcases List.mem_append.mp hr with hr | hr
      · exact hgood r hr
      · rcases List.mem_singleton.mp hr with rfl
        exact ⟨a, b, c, d, _, rfl⟩
    obtain ⟨X, ys, hE, hXl, hYl⟩ := extractXy_ok_of_good hall (by simp)
    have hstep := predict_good_mul m (forms k) (trajectory m true forms init k)
      [a, b, c, d] hp (by rw [hlen]; exact h5) X ys hE
    refine ⟨⟨m.predict (trajectory m true forms init k).clf [a, b, c, d],
        by rw [hstep]⟩, fun _ => ?_, fun hc => absurd h5 hc⟩
    rw [trajectory_succ, hstep]
    exact ⟨X, ys, hE, rfl, rfl⟩
  · have hstep := predict_good_notMul m true (forms k) (trajectory m true forms init k)
      [a, b, c, d] hp (by rw [hlen]; exact h5)
    refine ⟨⟨m.predict (trajectory m true forms init k).clf [a, b, c, d],
        by rw [hstep]⟩, fun hc => absurd hc h5, fun _ => ?_⟩
    rw [trajectory_succ, hstep]
    exact ⟨rfl, rfl⟩

/-- C1 witness: the concrete boundary request `N = 5` of a constant
well-formed request stream. -/
theorem C1_artifact_overwrite_iff_mult5_witness :
    (0 : ℕ) < 5 ∧
    ((∃ l, (predict constClf true wForm
        (trajectory constClf true (fun _ => wForm) wInit (5 - 1))).2 = .ok l) ∧
    (5 % 5 = 0 →
      ∃ X y, extractXy (trajectory constClf true (fun _ => wForm) wInit 5).collection =
          .ok (X, y) ∧
        (trajectory constClf true (fun _ => wForm) wInit 5).artifact =
          some (constClf.fit X y) ∧
        (trajectory constClf true (fun _ => wForm) wInit 5).writeCount =
          (trajectory constClf true (fun _ => wForm) wInit (5 - 1)).writeCount + 1) ∧
    (5 % 5 ≠ 0 →
      (trajectory constClf true (fun _ => wForm) wInit 5).artifact =
        (trajectory constClf true (fun _ => wForm) wInit (5 - 1)).artifact ∧
      (trajectory constClf true (fun _ => wForm) wInit 5).writeCount =
        (trajectory constClf true (fun _ => wForm) wInit (5 - 1)).writeCount)) :=
  ⟨by decide, C1_artifact_overwrite_iff_mult5 constClf (fun _ => wForm)
    (fun _ => ⟨1, 2, 3, 4, rfl⟩) wInit rfl 5 (by decide)⟩

/-- C2 (amended): when the 5th record is inserted (collection initially
empty, requests well-formed), the triggered refit trains the classifier
on exactly the 5 accumulated collection records — the original
reference training set is not part of the refit — and afterwards the
persisted artifact is a whole, loadable pickled classifier. -/
theorem C2_fifth_request_refits_on_five_records (m : ML) (forms : ℕ → List String)
    (hf : ∀ k, GoodForm (forms k)) (init : AppState m) (h0 : init.collection = []) :
    ∃ X y, extractXy (trajectory m true forms init 5).collection = .ok (X, y) ∧
      X.length = 5 ∧ y.length = 5 ∧
      (trajectory m true forms init 5).artifact = some (m.fit X y) ∧
      ((trajectory m true forms init 5).artifact).isSome = true := by
  obtain ⟨hlen, hgood⟩ := trajectory_inv m forms hf init h0 4
  obtain ⟨a, b, c, d, hp⟩ := hf 4
  have hall : ∀ r ∈ (trajectory m true forms init 4).collection ++
      [mkDoc [a, b, c, d]
        (m.predict (trajectory m true forms init 4).clf [a, b, c, d])], GoodDoc r := by
    intro r hr
    rcases List.mem_append.mp hr with hr | hr
    · exact hgood r hr
    · rcases List.mem_singleton.mp hr with rfl
      exact ⟨a, b, c, d, _, rfl⟩
  obtain ⟨X, ys, hE, hXl, hYl⟩ := extractXy_ok_of_good hall (by simp)
  have hstep := predict_good_mul m (forms 4) (trajectory m true forms init 4)
    [a, b, c, d] hp (by rw [hlen]) X ys hE
  have hT := trajectory_succ m true forms init 4
  rw [hstep] at hT
  rw [show (5 : ℕ) = 4 + 1 from rfl, hT]
  refine ⟨X, ys, hE, ?_, ?_, rfl, rfl⟩
  · rw [hXl]
    simp [hlen]
  · rw [hYl]
    simp [hlen]

/-- C2 witness: the concrete 5-request scenario. -/
theorem C2_fifth_request_refits_on_five_records_witness :
    ∃ X y, extractXy
        (trajectory constClf true (fun _ => wForm) wInit 5).collection = .ok (X, y) ∧
      X.length = 5 ∧ y.length = 5 ∧
      (trajectory constClf true (fun _ => wForm) wInit 5).artifact =
        some (constClf.fit X y) ∧
      ((trajectory constClf true (fun _ => wForm) wInit 5).artifact).isSome = true :=
  C2_fifth_request_refits_on_five_records constClf (fun _ => wForm)
    (fun _ => ⟨1, 2, 3, 4, rfl⟩) wInit rfl

/-- C2 counterexample: the claim as stated — the 5th-record refit
trains on the 5 accumulated records *together with the original 150-row
reference training set* — is false.  `countClf`'s artifact records the
number of rows of the matrix the refit was fitted on: after the 5th
request from an empty collection it is 5, not 5 + 150. -/
theorem C2_refit_excludes_reference_set_cex :
    (trajectory countClf true (fun _ => wForm) wCountInit 5).artifact = some (5 : ℕ) ∧
    (trajectory countClf true (fun _ => wForm) wCountInit 5).artifact ≠
      some ((5 : ℕ) + 150) := by
  have ha : (trajectory countClf true (fun _ => wForm) wCountInit 5).artifact =
      some (5 : ℕ) := rfl
  refine ⟨ha, ?_⟩
  rw [ha]
  intro h
  exact absurd (Option.some.inj h) (by decide)

/-- C7: for every 4-numeric-field request served at any state reachable
from a fresh bootstrap start — the bootstrap model itself or any model
produced by refits on accumulated prediction records — the label the
response renders is one of the three iris species names. -/
theorem C7_response_label_in_species_set (m : ML) (hm : m.predInTrain)
    (iris : IrisData) (forms : ℕ → List String) (k : ℕ) (form : List String)
    (a b c d : ℚ) (l : String)
    (hp : mapOpt parseFloat form = some [a, b, c, d])
    (h : (predict m true form (trajectory m true forms (initState m iris) k)).2 =
        .ok l) :
    l ∈ target_names := by
  have hinv := trajectory_labelInv m hm true forms iris k
  rw [predict_ok_label m true form _ [a, b, c, d] l hp h]
  exact hinv.1 [a, b, c, d]

/-- C7 witness: a concrete request at the bootstrap state. -/
theorem C7_response_label_in_species_set_witness :
    mapOpt parseFloat wForm = some [(1 : ℚ), 2, 3, 4] ∧
    (predict constClf true wForm
      (trajectory constClf true (fun _ => wForm)
        (initState constClf toyIris) 0)).2 = .ok "setosa" ∧
    "setosa" ∈ target_names :=
  ⟨rfl, rfl, C7_response_label_in_species_set constClf constClf_predInTrain toyIris
    (fun _ => wForm) 0 wForm 1 2 3 4 "setosa" rfl rfl⟩

/-- C9 (implicit): the refit condition counts the records stored in the
collection — pre-existing ones included — not the requests served by
this process.  With 4 pre-existing records, the very first request of
the process (per-process index `N = 1`, `1 % 5 ≠ 0`) already triggers a
refit and artifact overwrite; the refit matrix has all 5 rows. -/
theorem C9_refit_counts_preexisting_records :
    1 % 5 ≠ 0 ∧
    wCountInit4.collection.length = 4 ∧
    (predict countClf true wForm wCountInit4).1.writeCount =
      wCountInit4.writeCount + 1 ∧
    (predict countClf true wForm wCountInit4).1.artifact = some (5 : ℕ) :=
  ⟨by decide, rfl, rfl, rfl⟩
